import Mathlib

/-!
Verification of the rfp-assistant knowledge-retrieval front end and
embedder invocation scripts.

The development shallowly embeds the JavaScript front end
(`static/main.js`, `static/chat.js`), the embedder invocation shell
scripts (`embed_knowledge.sh`, `services/embed_knowledge.sh`,
`embed_knowledge.bat`), and — where the Python retrieval service is not
part of the source tree — models the retrieval layer from the design
document.  JavaScript strings become Lean `String`, JavaScript values
become the inductive `JsValue`, fallible operations become `Except`,
and DOM mutation becomes explicit state passing.
-/

/-! ## JavaScript primitives -/

/-- Embedding of `String.prototype.trim`: strip leading and trailing
whitespace characters. -/
def jsTrim (s : String) : String :=
  String.mk (((s.data.dropWhile Char.isWhitespace).reverse.dropWhile
    Char.isWhitespace).reverse)

/-- Embedding of `Array.prototype.join(sep)` once the elements have been
coerced to strings: the separator is interleaved between elements. -/
def joinJs (sep : String) : List String → String
  | [] => ""
  | [x] => x
  | x :: rest => x ++ sep ++ joinJs sep rest

/-- A loosely-typed JavaScript value as it reaches the metadata renderer:
null/undefined, string, number, array, or plain object (an ordered list
of key/value fields, as `Object.entries` exposes it). -/
inductive JsValue where
  | null : JsValue
  | str : String → JsValue
  | num : Int → JsValue
  | arr : List JsValue → JsValue
  | obj : List (String × JsValue) → JsValue
deriving Repr

/-- JavaScript truthiness: `null`/`undefined`, the empty string and the
number `0` are falsy; every array and object is truthy. -/
def jsTruthy : JsValue → Bool
  | .null => false
  | .str s => s ≠ ""
  | .num n => n ≠ 0
  | .arr _ => true
  | .obj _ => true

mutual

/-- Embedding of the JavaScript `String(v)` coercion (also what a
template literal placeholder performs): `null` renders as "null",
arrays render as their comma-joined elements, and a plain object
renders as the default "[object Object]". -/
def jsStringOf : JsValue → String
  | .null => "null"
  | .str s => s
  | .num n => toString n
  | .arr xs => jsArrayToString xs
  | .obj _ => "[object Object]"

/-- Embedding of `Array.prototype.toString` / `join(",")`: elements are
coerced with `jsElemToString` and separated by commas. -/
def jsArrayToString : List JsValue → String
  | [] => ""
  | [v] => jsElemToString v
  | v :: rest => jsElemToString v ++ "," ++ jsArrayToString rest

/-- Coercion applied by `Array.prototype.join` to a single element:
like `String(v)` except that `null`/`undefined` render as the empty
string. -/
def jsElemToString : JsValue → String
  | .null => ""
  | .str s => s
  | .num n => toString n
  | .arr xs => jsArrayToString xs
  | .obj _ => "[object Object]"

end

/-- Property read `fields.k`: the first field named `k`, if any. -/
def getField (fields : List (String × JsValue)) (k : String) : Option JsValue :=
  (fields.find? (fun p => p.1 = k)).map (fun p => p.2)

/-- Truthiness of a property read: a missing property is `undefined`,
hence falsy. -/
def fieldTruthy (fields : List (String × JsValue)) (k : String) : Bool :=
  match getField fields k with
  | some v => jsTruthy v
  | none => false

/-- Value of the JavaScript chain `item.name || item.title || item.id`:
the first truthy operand, or the last operand (possibly `undefined`,
embedded as `null`) when none is truthy. -/
def nameTitleIdChain (fields : List (String × JsValue)) : JsValue :=
  if fieldTruthy fields "name" then (getField fields "name").getD .null
  else if fieldTruthy fields "title" then (getField fields "title").getD .null
  else (getField fields "id").getD .null

/-! ## main.js: getDisplayValue (metadata rendering) -/

/-- Embedding of the callback `getDisplayValue` maps over array items:
objects inside arrays try `name || title || id`, otherwise join their
`Object.values` with ", "; arrays inside arrays fail the `Array.isArray`
re-check path and also fall through to the `Object.values` join (the
values of an array being its elements); other items go through
`String(item)`.  The result is then coerced by the outer `join`. -/
def displayArrayItem : JsValue → String
  | .obj fields =>
      if jsTruthy (nameTitleIdChain fields) then
        jsElemToString (nameTitleIdChain fields)
      else
        joinJs ", " ((fields.map (fun p => p.2)).map jsElemToString)
  | .arr xs => joinJs ", " (xs.map jsElemToString)
  | .null => "null"
  | .str s => s
  | .num n => toString n

/-- Embedding of `getDisplayValue` from `static/main.js`: null/undefined
become the empty string, strings pass through, arrays are comma-joined
item renderings, and objects are rendered as name/role/email, as
contact/email/phone, or as key/value pairs (for at most three entries)
falling back to a join of the values.  Numbers hit the final
`String(value)`. -/
def getDisplayValue : JsValue → String
  | .null => ""
  | .str s => s
  | .arr items => joinJs ", " (items.map displayArrayItem)
  | .obj fields =>
      if fieldTruthy fields "name" then
        jsStringOf ((getField fields "name").getD .null)
          ++ (if fieldTruthy fields "role" then
                ", " ++ jsStringOf ((getField fields "role").getD .null)
              else "")
          ++ (if fieldTruthy fields "email" then
                ", " ++ jsStringOf ((getField fields "email").getD .null)
              else "")
      else if fieldTruthy fields "contact" || fieldTruthy fields "email"
          || fieldTruthy fields "phone" then
        joinJs ", "
          ((if fieldTruthy fields "contact" then
              [jsElemToString ((getField fields "contact").getD .null)] else [])
           ++ (if fieldTruthy fields "email" then
              [jsElemToString ((getField fields "email").getD .null)] else [])
           ++ (if fieldTruthy fields "phone" then
              [jsElemToString ((getField fields "phone").getD .null)] else []))
      else
        if fields.length ≤ 3 then
          joinJs ", " (fields.map (fun p => p.1 ++ ": " ++ jsStringOf p.2))
        else
          joinJs ", " ((fields.map (fun p => p.2)).map jsElemToString)
  | .num n => toString n

/-- A value is primitive when it is null, a string or a number. -/
def isPrimitive : JsValue → Bool
  | .null => true
  | .str _ => true
  | .num _ => true
  | .arr _ => false
  | .obj _ => false

/-- Nesting depth at most one: arrays may contain primitives and objects
whose field values are all primitive; objects may only have primitive
field values. -/
def flatDepth1 : JsValue → Bool
  | .arr items =>
      items.all (fun item =>
        match item with
        | .obj fs => (fs.map (fun p => p.2)).all isPrimitive
        | .arr _ => false
        | _ => true)
  | .obj fs => (fs.map (fun p => p.2)).all isPrimitive
  | _ => true

mutual

/-- Every string occurring in the value (string leaves and object keys)
avoids the character `c`. -/
def leavesAvoid (c : Char) : JsValue → Bool
  | .null => true
  | .num _ => true
  | .str s => s.data.all (fun d => d ≠ c)
  | .arr xs => leavesAvoidList c xs
  | .obj fs => leavesAvoidFields c fs

/-- List version of `leavesAvoid`. -/
def leavesAvoidList (c : Char) : List JsValue → Bool
  | [] => true
  | v :: rest => leavesAvoid c v && leavesAvoidList c rest

/-- Field-list version of `leavesAvoid`: both keys and values avoid `c`. -/
def leavesAvoidFields (c : Char) : List (String × JsValue) → Bool
  | [] => true
  | (k, v) :: rest =>
      k.data.all (fun d => d ≠ c) && leavesAvoid c v && leavesAvoidFields c rest

end

/-- The string `pat` occurs as a contiguous substring of `s`. -/
def strContains (s pat : String) : Prop :=
  pat.data <:+: s.data

instance (s pat : String) : Decidable (strContains s pat) :=
  inferInstanceAs (Decidable (pat.data <:+: s.data))

/-! ## Character-avoidance lemmas for the metadata renderer -/

lemma not_mem_data_append {c : Char} {s t : String}
    (hs : c ∉ s.data) (ht : c ∉ t.data) : c ∉ (s ++ t).data := by
  rw [String.data_append]
  intro h
  rcases List.mem_append.mp h with h' | h'
  · exact hs h'
  · exact ht h'

lemma not_mem_joinJs {c : Char} {sep : String} {pieces : List String}
    (hsep : c ∉ sep.data) (hp : ∀ p ∈ pieces, c ∉ p.data) :
    c ∉ (joinJs sep pieces).data := by
  induction pieces with
  | nil =>
      intro h
      simp only [joinJs] at h
      exact absurd h (List.not_mem_nil c)
  | cons x rest ih =>
      cases rest with
      | nil => exact hp x (by simp)
      | cons y ys =>
          show c ∉ (x ++ sep ++ joinJs sep (y :: ys)).data
          exact not_mem_data_append
            (not_mem_data_append (hp x (by simp)) hsep)
            (ih (fun p hmem => hp p (List.mem_cons_of_mem x hmem)))

lemma digitChar_ne_lbracket (m : Nat) : Nat.digitChar m ≠ '[' := by
  match m with
  | 0 | 1 | 2 | 3 | 4 | 5 | 6 | 7 | 8 | 9 | 10 | 11 | 12 | 13 | 14 | 15 => decide
  | (n + 16) =>
      have h : Nat.digitChar (n + 16) = '*' := rfl
      rw [h]; decide

lemma toDigitsCore_avoid_lbracket (b : Nat) :
    ∀ (fuel n : Nat) (acc : List Char), (∀ d ∈ acc, d ≠ '[') →
      ∀ d ∈ Nat.toDigitsCore b fuel n acc, d ≠ '[' := by
  intro fuel
  induction fuel with
  | zero => intro n acc hacc d hd; exact hacc d hd
  | succ fuel ih =>
      intro n acc hacc d hd
      rw [Nat.toDigitsCore] at hd
      by_cases h : n / b = 0
      · simp only [h, if_pos] at hd
        rcases List.mem_cons.mp hd with h' | h'
        · exact h' ▸ digitChar_ne_lbracket _
        · exact hacc d h'
      · simp only [h, if_neg, not_false_iff] at hd
        refine ih (n / b) (Nat.digitChar (n % b) :: acc) ?_ d hd
        intro e he
        rcases List.mem_cons.mp he with h' | h'
        · exact h' ▸ digitChar_ne_lbracket _
        · exact hacc e h'

lemma natRepr_avoid_lbracket (n : Nat) : '[' ∉ (Nat.repr n).data := by
  intro h
  have := toDigitsCore_avoid_lbracket 10 (n + 1) n [] (by intro d hd; cases hd) '[' ?_ rfl
  · exact this
  · simpa [Nat.repr, Nat.toDigits, List.asString] using h

lemma intToString_avoid_lbracket (n : Int) : '[' ∉ (toString n).data := by
  cases n with
  | ofNat m =>
      simpa [toString, Int.repr] using natRepr_avoid_lbracket m
  | negSucc m =>
      intro h
      simp only [toString, Int.repr] at h
      rw [String.data_append] at h
      rcases List.mem_append.mp h with h' | h'
      · simp at h'
      · exact natRepr_avoid_lbracket (m + 1) h'

lemma leavesAvoid_str {c : Char} {s : String}
    (h : leavesAvoid c (.str s) = true) : c ∉ s.data := by
  intro hmem
  simp only [leavesAvoid] at h
  have := List.all_eq_true.mp h c hmem
  simp at this

lemma jsStringOf_primitive_avoid {v : JsValue}
    (hp : isPrimitive v = true) (hl : leavesAvoid '[' v = true) :
    '[' ∉ (jsStringOf v).data := by
  cases v with
  | null => decide
  | str s => exact leavesAvoid_str hl
  | num n => exact intToString_avoid_lbracket n
  | arr xs => simp [isPrimitive] at hp
  | obj fs => simp [isPrimitive] at hp

lemma jsElemToString_primitive_avoid {v : JsValue}
    (hp : isPrimitive v = true) (hl : leavesAvoid '[' v = true) :
    '[' ∉ (jsElemToString v).data := by
  cases v with
  | null => decide
  | str s => exact leavesAvoid_str hl
  | num n => exact intToString_avoid_lbracket n
  | arr xs => simp [isPrimitive] at hp
  | obj fs => simp [isPrimitive] at hp

lemma leavesAvoidList_mem {c : Char} {xs : List JsValue}
    (h : leavesAvoidList c xs = true) {v : JsValue} (hm : v ∈ xs) :
    leavesAvoid c v = true := by
  induction xs with
  | nil => cases hm
  | cons x rest ih =>
      rw [leavesAvoidList, Bool.and_eq_true] at h
      rcases List.mem_cons.mp hm with h' | h'
      · exact h' ▸ h.1
      · exact ih h.2 h'

lemma leavesAvoidFields_val {c : Char} {fs : List (String × JsValue)}
    (h : leavesAvoidFields c fs = true) {k : String} {v : JsValue}
    (hm : (k, v) ∈ fs) : leavesAvoid c v = true := by
  induction fs with
  | nil => cases hm
  | cons p rest ih =>
      obtain ⟨k', v'⟩ := p
      rw [leavesAvoidFields, Bool.and_eq_true, Bool.and_eq_true] at h
      rcases List.mem_cons.mp hm with h' | h'
      · cases h'; exact h.1.2
      · exact ih h.2 h'

lemma leavesAvoidFields_key {c : Char} {fs : List (String × JsValue)}
    (h : leavesAvoidFields c fs = true) {k : String} {v : JsValue}
    (hm : (k, v) ∈ fs) : c ∉ k.data := by
  induction fs with
  | nil => cases hm
  | cons p rest ih =>
      obtain ⟨k', v'⟩ := p
      rw [leavesAvoidFields, Bool.and_eq_true, Bool.and_eq_true] at h
      rcases List.mem_cons.mp hm with h' | h'
      · cases h'
        intro hmem
        have := List.all_eq_true.mp h.1.1 c hmem
        simp at this
      · exact ih h.2 h'

lemma values_primitive {fs : List (String × JsValue)}
    (h : ((fs.map (fun p => p.2)).all isPrimitive) = true)
    {k : String} {v : JsValue} (hm : (k, v) ∈ fs) : isPrimitive v = true :=
  List.all_eq_true.mp h v (List.mem_map_of_mem (fun p => p.2) hm)

lemma getField_mem {fs : List (String × JsValue)} {k : String} {v : JsValue}
    (h : getField fs k = some v) : ∃ k', (k', v) ∈ fs := by
  rw [getField, Option.map_eq_some'] at h
  obtain ⟨p, hfind, hv⟩ := h
  exact ⟨p.1, by rw [← hv]; exact List.mem_of_find?_eq_some hfind⟩

lemma getFieldD_prim_avoid {fs : List (String × JsValue)} (k : String)
    (hall : ((fs.map (fun p => p.2)).all isPrimitive) = true)
    (hl : leavesAvoidFields '[' fs = true) :
    isPrimitive ((getField fs k).getD .null) = true ∧
      leavesAvoid '[' ((getField fs k).getD .null) = true := by
  cases hf : getField fs k with
  | none => exact ⟨rfl, rfl⟩
  | some v =>
      obtain ⟨k', hm⟩ := getField_mem hf
      exact ⟨values_primitive hall hm, leavesAvoidFields_val hl hm⟩

lemma nameTitleIdChain_prim_avoid {fs : List (String × JsValue)}
    (hall : ((fs.map (fun p => p.2)).all isPrimitive) = true)
    (hl : leavesAvoidFields '[' fs = true) :
    isPrimitive (nameTitleIdChain fs) = true ∧
      leavesAvoid '[' (nameTitleIdChain fs) = true := by
  unfold nameTitleIdChain
  split
  · exact getFieldD_prim_avoid "name" hall hl
  · split
    · exact getFieldD_prim_avoid "title" hall hl
    · exact getFieldD_prim_avoid "id" hall hl

lemma valuesJoin_avoid {fs : List (String × JsValue)}
    (hall : ((fs.map (fun p => p.2)).all isPrimitive) = true)
    (hl : leavesAvoidFields '[' fs = true) :
    '[' ∉ (joinJs ", " ((fs.map (fun p => p.2)).map jsElemToString)).data := by
  refine not_mem_joinJs (by decide) ?_
  intro p hp
  obtain ⟨v, hv, rfl⟩ := List.mem_map.mp hp
  obtain ⟨⟨k', v'⟩, hm, rfl⟩ := List.mem_map.mp hv
  exact jsElemToString_primitive_avoid (values_primitive hall hm)
    (leavesAvoidFields_val hl hm)

lemma displayArrayItem_avoid {item : JsValue}
    (hflat : (match item with
        | .obj fs => ((fs.map (fun p => p.2)).all isPrimitive)
        | .arr _ => false
        | _ => true) = true)
    (hl : leavesAvoid '[' item = true) :
    '[' ∉ (displayArrayItem item).data := by
  cases item with
  | null => decide
  | str s => exact leavesAvoid_str hl
  | num n => exact intToString_avoid_lbracket n
  | arr xs => simp at hflat
  | obj fs =>
      have hall : ((fs.map (fun p => p.2)).all isPrimitive) = true := hflat
      have hfl : leavesAvoidFields '[' fs = true := by
        simpa [leavesAvoid] using hl
      rw [displayArrayItem]
      split
      · exact jsElemToString_primitive_avoid
          (nameTitleIdChain_prim_avoid hall hfl).1
          (nameTitleIdChain_prim_avoid hall hfl).2
      · exact valuesJoin_avoid hall hfl

lemma getDisplayValue_avoid {v : JsValue}
    (hf : flatDepth1 v = true) (hl : leavesAvoid '[' v = true) :
    '[' ∉ (getDisplayValue v).data := by
  cases v with
  | null => decide
  | str s => exact leavesAvoid_str hl
  | num n => exact intToString_avoid_lbracket n
  | arr items =>
      rw [getDisplayValue]
      refine not_mem_joinJs (by decide) ?_
      intro p hp
      obtain ⟨item, hitem, rfl⟩ := List.mem_map.mp hp
      have hfl : leavesAvoidList '[' items = true := by
        simpa [leavesAvoid] using hl
      refine displayArrayItem_avoid ?_ (leavesAvoidList_mem hfl hitem)
      exact List.all_eq_true.mp (by simpa [flatDepth1] using hf) item hitem
  | obj fs =>
      have hall : ((fs.map (fun p => p.2)).all isPrimitive) = true := by
        simpa [flatDepth1] using hf
      have hfl : leavesAvoidFields '[' fs = true := by
        simpa [leavesAvoid] using hl
      rw [getDisplayValue]
      split
      · refine not_mem_data_append (not_mem_data_append ?_ ?_) ?_
        · exact jsStringOf_primitive_avoid
            (getFieldD_prim_avoid "name" hall hfl).1
            (getFieldD_prim_avoid "name" hall hfl).2
        · split
          · refine not_mem_data_append (by decide) ?_
            exact jsStringOf_primitive_avoid
              (getFieldD_prim_avoid "role" hall hfl).1
              (getFieldD_prim_avoid "role" hall hfl).2
          · decide
        · split
          · refine not_mem_data_append (by decide) ?_
            exact jsStringOf_primitive_avoid
              (getFieldD_prim_avoid "email" hall hfl).1
              (getFieldD_prim_avoid "email" hall hfl).2
          · decide
      · split
        · refine not_mem_joinJs (by decide) ?_
          intro p hp
          rcases List.mem_append.mp hp with hp' | hp'
          on_goal 1 =>
            rcases List.mem_append.mp hp' with hp'' | hp''
            on_goal 1 =>
              split at hp''
              · rcases List.mem_singleton.mp hp'' with rfl
                exact jsElemToString_primitive_avoid
                  (getFieldD_prim_avoid "contact" hall hfl).1
                  (getFieldD_prim_avoid "contact" hall hfl).2
              · cases hp''
            split at hp''
            · rcases List.mem_singleton.mp hp'' with rfl
              exact jsElemToString_primitive_avoid
                (getFieldD_prim_avoid "email" hall hfl).1
                (getFieldD_prim_avoid "email" hall hfl).2
            · cases hp''
          split at hp'
          · rcases List.mem_singleton.mp hp' with rfl
            exact jsElemToString_primitive_avoid
              (getFieldD_prim_avoid "phone" hall hfl).1
              (getFieldD_prim_avoid "phone" hall hfl).2
          · cases hp'
        · split
          · refine not_mem_joinJs (by decide) ?_
            intro p hp
            obtain ⟨⟨k, w⟩, hm, rfl⟩ := List.mem_map.mp hp
            refine not_mem_data_append (not_mem_data_append ?_ (by decide)) ?_
            · exact leavesAvoidFields_key hfl hm
            · exact jsStringOf_primitive_avoid (values_primitive hall hm)
                (leavesAvoidFields_val hfl hm)
          · exact valuesJoin_avoid hall hfl

lemma strContains_lbracket {s : String}
    (h : strContains s "[object Object]") : '[' ∈ s.data :=
  h.subset (by decide)

/-- C5, counterexample: the metadata renderer is not recursive, so a
mapping whose field value is itself a mapping renders that value with
the default object coercion — `getDisplayValue` applied to the nested
mapping a ↦ (b ↦ "c") yields the string "a: [object Object]", which
contains the literal default object rendering, refuting the claim that
it never appears. -/
theorem getDisplayValue_nested_default_render :
    getDisplayValue (.obj [("a", .obj [("b", .str "c")])])
        = "a: [object Object]" ∧
      strContains (getDisplayValue (.obj [("a", .obj [("b", .str "c")])]))
        "[object Object]" := by
  exact ⟨by decide, by decide⟩

/-- C5, amended: `getDisplayValue` returns strings unchanged and renders
null/undefined as the empty string; and for every metadata value of
nesting depth at most one (arrays of primitives or of flat mappings,
mappings with primitive values) whose strings do not contain the
character `[`, the result never contains the default object rendering
"[object Object]".  For deeper nesting the default rendering can leak
through (see the counterexample). -/
theorem getDisplayValue_flat_no_default_render :
    (∀ s : String, getDisplayValue (.str s) = s) ∧
      getDisplayValue .null = "" ∧
      ∀ v : JsValue, flatDepth1 v = true → leavesAvoid '[' v = true →
        ¬ strContains (getDisplayValue v) "[object Object]" := by
  refine ⟨fun s => rfl, rfl, fun v hf hl hcontains => ?_⟩
  exact getDisplayValue_avoid hf hl (strContains_lbracket hcontains)

/-- Witness for the amended C5 theorem at a concrete flat value. -/
theorem getDisplayValue_flat_no_default_render_witness :
    flatDepth1 (.arr [.str "alpha", .num 7, .obj [("name", .str "Bob")]]) = true ∧
      leavesAvoid '[' (.arr [.str "alpha", .num 7, .obj [("name", .str "Bob")]]) = true ∧
      ¬ strContains
        (getDisplayValue (.arr [.str "alpha", .num 7, .obj [("name", .str "Bob")]]))
        "[object Object]" :=
  ⟨by decide, by decide,
    getDisplayValue_flat_no_default_render.2.2
      (.arr [.str "alpha", .num 7, .obj [("name", .str "Bob")]])
      (by decide) (by decide)⟩

/-! ## Embedder invocation scripts -/

/-- Source and output directory with which a script invokes
`utils/knowledge_embedder.py`. -/
structure EmbedderInvocation where
  sourceDir : String
  outputDir : String
deriving Repr, DecidableEq

/-- Embedding of `services/embed_knowledge.sh`: `SOURCE_DIR` and
`OUTPUT_DIR` are assigned literal absolute paths at the top of the
script; the command-line arguments of the invocation are never read,
and the embedder runs on the two constants. -/
def servicesEmbedKnowledgeSh (_args : List String) : EmbedderInvocation :=
  { sourceDir :=
      "/Users/u1112870/Library/CloudStorage/OneDrive-IQVIA/Ananth/Personal/Arokia_sir/Responses",
    outputDir :=
      "/Users/u1112870/Library/CloudStorage/OneDrive-IQVIA/Ananth/Personal/Arokia_sir/rfp-data" }

/-- Embedding of `embed_knowledge.sh` at the repository root: the
directories are the literal relative constants `../Responses` and
`../rfp-data`; the invocation arguments are never read. -/
def embedKnowledgeSh (_args : List String) : EmbedderInvocation :=
  { sourceDir := "../Responses", outputDir := "../rfp-data" }

/-- Embedding of the batch variant at the top of `embed_knowledge.bat`:
same literal relative constants, arguments never read. -/
def embedKnowledgeBat (_args : List String) : EmbedderInvocation :=
  { sourceDir := "../Responses", outputDir := "../rfp-data" }

/-! ## chat.js: state, rendering and sendChatMessage -/

/-- Truthiness of a possibly-missing string property: `undefined` and
the empty string are falsy. -/
def jsTruthyOptStr : Option String → Bool
  | some s => s ≠ ""
  | none => false

/-- Embedding of the JavaScript pattern `v || dflt` for a
possibly-missing string: the default replaces a missing or empty
string. -/
def jsStrOr (v : Option String) (dflt : String) : String :=
  match v with
  | some s => if s = "" then dflt else s
  | none => dflt

/-- One source attached to a chat answer, as delivered by the API:
both the label and the text may be missing. -/
structure ChatSource where
  source : Option String
  text : Option String
deriving Repr, DecidableEq

/-- One message of the chat transcript kept in `chatState.messages`. -/
structure ChatMessage where
  text : String
  type : String
  sources : List ChatSource
deriving Repr, DecidableEq

/-- Embedding of the `chatState` object of `static/chat.js`. -/
structure ChatState where
  isOpen : Bool
  messages : List ChatMessage
  loading : Bool
deriving Repr, DecidableEq

/-- Rendering of one source list item in the chat sources list:
`<strong>label:</strong> preview`, where the label falls back to
"Unknown" and the preview truncates the text to 100 characters or says
"No text available". -/
def renderChatSourceLi (s : ChatSource) : String :=
  "<strong>" ++ jsStrOr s.source "Unknown" ++ ":</strong> "
    ++ (if jsTruthyOptStr s.text then (s.text.getD "").take 100 ++ "..."
        else "No text available")

/-- One chat message as rendered into the DOM by `addChatMessage`:
css class, text, whether the sources section is displayed, and the
rendered source list items. -/
structure RenderedChatMessage where
  cssClass : String
  text : String
  sourcesShown : Bool
  sourceItems : List String
deriving Repr, DecidableEq

/-- DOM-side state of the chat widget: the input field, the rendered
message list, and whether the loading indicator is present. -/
structure ChatUI where
  inputValue : String
  rendered : List RenderedChatMessage
  loadingShown : Bool
deriving Repr, DecidableEq

/-- Embedding of `addChatMessage(text, type, sources)`: appends the
message to `chatState.messages` and appends a rendered message to the
DOM; the sources section is displayed only for a non-empty sources
list. -/
def addChatMessage (st : ChatState) (dom : List RenderedChatMessage)
    (text msgType : String) (sources : List ChatSource) :
    ChatState × List RenderedChatMessage :=
  ({ st with
      messages := st.messages
        ++ [{ text := text, type := msgType, sources := sources }] },
   dom ++ [{ cssClass := msgType, text := text,
             sourcesShown := !sources.isEmpty,
             sourceItems :=
               if sources.isEmpty then []
               else sources.map renderChatSourceLi }])

/-- Outcome of the `fetch` to `/api/chat` as observed by
`sendChatMessage`: a thrown network error, a non-OK HTTP status (which
the code turns into a thrown error), or a parsed JSON body. -/
inductive FetchOutcome where
  | networkError : FetchOutcome
  | httpError : Nat → FetchOutcome
  | success : Option String → List ChatSource → FetchOutcome
deriving Repr, DecidableEq

/-- The fixed message shown on any failed chat request. -/
def chatErrorMessage : String :=
  "Sorry, there was an error processing your request. Please try again."

/-- The fixed message shown when the API answers without response
text. -/
def chatEmptyResponseMessage : String :=
  "Sorry, I was unable to generate a response. Please try again."

/-- Embedding of `sendChatMessage` from `static/chat.js`.  Returns the
new chat state, the new DOM state, and whether a network request was
issued.  An input that trims to the empty string, or a call while a
request is already loading, returns immediately. -/
def sendChatMessage (st : ChatState) (ui : ChatUI) (fetch : FetchOutcome) :
    ChatState × ChatUI × Bool :=
  let message := jsTrim ui.inputValue
  if message == "" || st.loading then (st, ui, false)
  else
    let afterUser := addChatMessage st ui.rendered message "user" []
    let st2 : ChatState := { afterUser.1 with loading := true }
    let ui1 : ChatUI :=
      { inputValue := "", rendered := afterUser.2, loadingShown := true }
    match fetch with
    | .success responseText sources =>
        let st3 : ChatState := { st2 with loading := false }
        if jsTruthyOptStr responseText then
          let afterSys := addChatMessage st3 ui1.rendered
            (responseText.getD "") "system" sources
          (afterSys.1,
           { ui1 with rendered := afterSys.2, loadingShown := false }, true)
        else
          let afterSys := addChatMessage st3 ui1.rendered
            chatEmptyResponseMessage "system" []
          (afterSys.1,
           { ui1 with rendered := afterSys.2, loadingShown := false }, true)
    | .networkError =>
        let st3 : ChatState := { st2 with loading := false }
        let afterSys := addChatMessage st3 ui1.rendered
          chatErrorMessage "system" []
        (afterSys.1,
         { ui1 with rendered := afterSys.2, loadingShown := false }, true)
    | .httpError _ =>
        let st3 : ChatState := { st2 with loading := false }
        let afterSys := addChatMessage st3 ui1.rendered
          chatErrorMessage "system" []
        (afterSys.1,
         { ui1 with rendered := afterSys.2, loadingShown := false }, true)

/-! ## main.js: response sources table -/

/-- One source attached to a generated response, as rendered in the
responses view. -/
structure ResponseSource where
  source : Option String
  score : ℚ
  text : Option String
deriving Repr, DecidableEq

/-- One row of the sources table rendered by `renderResponses`: source
cell, relevance cell (the percentage value that `toFixed(1)` then
formats with one decimal), and content cell. -/
structure SourceRow where
  sourceCell : String
  relevanceCell : ℚ
  contentCell : String
deriving Repr, DecidableEq

/-- Rendering of one row of the sources table in `renderResponses`. -/
def renderSourceRow (s : ResponseSource) : SourceRow :=
  { sourceCell := jsStrOr s.source "Unknown",
    relevanceCell := s.score * 100,
    contentCell :=
      if jsTruthyOptStr s.text then (s.text.getD "").take 100 ++ "..."
      else "No text" }

/-- Embedding of the sources block of `renderResponses`: the table is
built only when the response carries a non-empty sources list, with one
row per source. -/
def renderResponseSources (sources : List ResponseSource) :
    Option (List SourceRow) :=
  if sources.isEmpty then none else some (sources.map renderSourceRow)

/-! ## main.js: upload handlers -/

/-- A file as the drop/file-input handlers see it: a name and a MIME
type. -/
structure JsFile where
  name : String
  type : String
deriving Repr, DecidableEq

/-- Action taken by a file handler: start the upload, or only show the
alert. -/
inductive UploadAction where
  | uploadFile : JsFile → UploadAction
  | alertMsg : String → UploadAction
deriving Repr, DecidableEq

/-- Embedding of `isValidFileType` from `static/main.js`. -/
def isValidFileType (f : JsFile) : Bool :=
  ["application/pdf",
   "application/vnd.openxmlformats-officedocument.wordprocessingml.document"
  ].contains f.type

/-- Embedding of `handleDrop`: takes `e.dataTransfer.files`, looks at
the first file, and uploads only a PDF or DOCX MIME type; otherwise it
alerts. -/
def handleDrop (files : List JsFile) : UploadAction :=
  match files.head? with
  | some f =>
      if f.type == "application/pdf"
          || f.type ==
            "application/vnd.openxmlformats-officedocument.wordprocessingml.document"
      then .uploadFile f
      else .alertMsg "Please upload a PDF or DOCX file"
  | none => .alertMsg "Please upload a PDF or DOCX file"

/-- Embedding of `handleFileSelect`: identical guard over
`e.target.files`. -/
def handleFileSelect (files : List JsFile) : UploadAction :=
  match files.head? with
  | some f =>
      if f.type == "application/pdf"
          || f.type ==
            "application/vnd.openxmlformats-officedocument.wordprocessingml.document"
      then .uploadFile f
      else .alertMsg "Please upload a PDF or DOCX file"
  | none => .alertMsg "Please upload a PDF or DOCX file"

/-! ## main.js: response structure sections and strength -/

/-- A question as `renderResponseStructure` reads it. -/
structure SectionQuestion where
  response_section : Option String
  type : String
  original_text : String
deriving Repr, DecidableEq

/-- Embedding of the strategic-question test in
`renderResponseStructure`. -/
def isStrategicQuestion (q : SectionQuestion) : Bool :=
  q.type == "Strategic" || q.original_text == "STRATEGIC ADDITION"

/-- One section accumulated by `renderResponseStructure`. -/
structure RfpSection where
  title : String
  questions : List SectionQuestion
  requirementCount : Nat
  strategicCount : Nat
deriving Repr, DecidableEq

/-- An empty section synthesized from the response guide structure (or
the default Executive Summary section). -/
def emptyGuideSection (title : String) : RfpSection :=
  { title := title, questions := [], requirementCount := 0,
    strategicCount := 0 }

/-- Insert a question into the section keyed by `title`, creating the
section on first use and bumping exactly one of the two counters. -/
def insertQuestion (secs : List RfpSection) (title : String)
    (q : SectionQuestion) : List RfpSection :=
  match secs with
  | [] =>
      [{ title := title, questions := [q],
         requirementCount := if isStrategicQuestion q then 0 else 1,
         strategicCount := if isStrategicQuestion q then 1 else 0 }]
  | s :: rest =>
      if s.title == title then
        { s with
            questions := s.questions ++ [q],
            requirementCount :=
              s.requirementCount + (if isStrategicQuestion q then 0 else 1),
            strategicCount :=
              s.strategicCount + (if isStrategicQuestion q then 1 else 0) }
          :: rest
      else s :: insertQuestion rest title q

/-- Embedding of the section-accumulation loop of
`renderResponseStructure`: questions without a truthy
`response_section` are skipped; the rest land in their section. -/
def buildSections (qs : List SectionQuestion) : List RfpSection :=
  qs.foldl (fun secs q =>
    match q.response_section with
    | some t => if t == "" then secs else insertQuestion secs t q
    | none => secs) []

/-- Embedding of the section strength computation in
`renderResponseStructure`: zero for a section without questions,
otherwise `min 100 (10 * totalQuestions + 30 * [has strategic])`. -/
def sectionStrengthPercent (sec : RfpSection) : Nat :=
  let totalQuestions := sec.requirementCount + sec.strategicCount
  if totalQuestions == 0 then 0
  else min 100 (totalQuestions * 10 + (if 0 < sec.strategicCount then 30 else 0))

/-! ## Claim C1: embedder invocation configuration -/

/-- C1, counterexample: the invocation scripts ignore their arguments —
invoking `services/embed_knowledge.sh` with explicit directories yields
the same embedder invocation as invoking it with none, and the source
directory it passes is a literal absolute deployment path baked into
the script text, refuting the claim that every directory is externally
supplied. -/
theorem embedScripts_ignore_invocation :
    servicesEmbedKnowledgeSh ["/tmp/source", "/tmp/output"]
        = servicesEmbedKnowledgeSh [] ∧
      (servicesEmbedKnowledgeSh ["/tmp/source", "/tmp/output"]).sourceDir
        = "/Users/u1112870/Library/CloudStorage/OneDrive-IQVIA/Ananth/Personal/Arokia_sir/Responses" ∧
      embedKnowledgeSh ["/tmp/source", "/tmp/output"] = embedKnowledgeSh [] ∧
      (embedKnowledgeSh ["/tmp/source", "/tmp/output"]).sourceDir
        = "../Responses" :=
  ⟨rfl, rfl, rfl, rfl⟩

/-- C1, amended: for every invocation, the embedder invocation scripts
use directories that are fixed constants of the script text —
`services/embed_knowledge.sh` an absolute `/Users/...` deployment path,
`embed_knowledge.sh` and `embed_knowledge.bat` the relative constants
`../Responses` and `../rfp-data` — and no configuration value is drawn
from the invocation. -/
theorem embedScripts_hardcoded_dirs :
    ∀ args : List String,
      servicesEmbedKnowledgeSh args =
        { sourceDir :=
            "/Users/u1112870/Library/CloudStorage/OneDrive-IQVIA/Ananth/Personal/Arokia_sir/Responses",
          outputDir :=
            "/Users/u1112870/Library/CloudStorage/OneDrive-IQVIA/Ananth/Personal/Arokia_sir/rfp-data" } ∧
      embedKnowledgeSh args =
        { sourceDir := "../Responses", outputDir := "../rfp-data" } ∧
      embedKnowledgeBat args =
        { sourceDir := "../Responses", outputDir := "../rfp-data" } :=
  fun _ => ⟨rfl, rfl, rfl⟩

/-! ## Claim C9: invalid file types never reach uploadFile -/

/-- C9: for every dropped or selected file list whose first file (if
any) has an invalid MIME type, both handlers only show the alert and
never invoke the upload. -/
theorem invalid_file_only_alerts :
    ∀ files : List JsFile,
      (∀ f, files.head? = some f → isValidFileType f = false) →
      handleDrop files = .alertMsg "Please upload a PDF or DOCX file" ∧
        handleFileSelect files = .alertMsg "Please upload a PDF or DOCX file" := by
  intro files h
  cases hf : files.head? with
  | none => exact ⟨by rw [handleDrop, hf], by rw [handleFileSelect, hf]⟩
  | some f =>
      have hv := h f hf
      rw [isValidFileType] at hv
      simp only [List.contains_cons, List.contains_nil, Bool.or_eq_false_iff,
        beq_eq_false_iff_ne] at hv
      constructor
      · simp [handleDrop, hf, hv.1, hv.2.1]
      · simp [handleFileSelect, hf, hv.1, hv.2.1]

/-- Witness for C9 at a plain-text file. -/
theorem invalid_file_only_alerts_witness :
    (∀ f, ([⟨"notes.txt", "text/plain"⟩] : List JsFile).head? = some f →
        isValidFileType f = false) ∧
      handleDrop [⟨"notes.txt", "text/plain"⟩]
          = .alertMsg "Please upload a PDF or DOCX file" ∧
      handleFileSelect [⟨"notes.txt", "text/plain"⟩]
          = .alertMsg "Please upload a PDF or DOCX file" :=
  ⟨by intro f hf; cases hf; decide,
    invalid_file_only_alerts [⟨"notes.txt", "text/plain"⟩]
      (by intro f hf; cases hf; decide)⟩

/-! ## Claim C10: section strength bounds -/

lemma insertQuestion_counts {secs : List RfpSection}
    (h : ∀ s ∈ secs, s.requirementCount + s.strategicCount = s.questions.length)
    (title : String) (q : SectionQuestion) :
    ∀ s ∈ insertQuestion secs title q,
      s.requirementCount + s.strategicCount = s.questions.length := by
  induction secs with
  | nil =>
      intro s hs
      simp only [insertQuestion, List.mem_singleton] at hs
      subst hs
      by_cases hq : isStrategicQuestion q = true <;> simp [hq]
  | cons s0 rest ih =>
      intro s hs
      rw [insertQuestion] at hs
      by_cases ht : (s0.title == title) = true
      · rw [if_pos ht] at hs
        rcases List.mem_cons.mp hs with h' | h'
        · subst h'
          have h0 := h s0 (List.mem_cons_self s0 rest)
          by_cases hq : isStrategicQuestion q = true <;>
            simp [hq, h0.symm] <;> omega
        · exact h s (List.mem_cons_of_mem s0 h')
      · rw [if_neg ht] at hs
        rcases List.mem_cons.mp hs with h' | h'
        · subst h'
          exact h s (List.mem_cons_self s rest)
        · exact ih (fun t htm => h t (List.mem_cons_of_mem s0 htm)) s h'

lemma buildSections_counts_aux (qs : List SectionQuestion)
    (acc : List RfpSection)
    (hacc : ∀ s ∈ acc, s.requirementCount + s.strategicCount = s.questions.length) :
    ∀ s ∈ qs.foldl (fun secs q =>
        match q.response_section with
        | some t => if t == "" then secs else insertQuestion secs t q
        | none => secs) acc,
      s.requirementCount + s.strategicCount = s.questions.length := by
  induction qs generalizing acc with
  | nil => exact hacc
  | cons q rest ih =>
      rw [List.foldl_cons]
      refine ih _ ?_
      cases hq : q.response_section with
      | none => exact hacc
      | some t =>
          by_cases ht : (t == "") = true
          · simpa [ht] using hacc
          · simpa [ht] using insertQuestion_counts hacc t q

lemma buildSections_counts (qs : List SectionQuestion) :
    ∀ s ∈ buildSections qs,
      s.requirementCount + s.strategicCount = s.questions.length :=
  buildSections_counts_aux qs [] (by intro s hs; cases hs)

/-- C10: every rendered section — accumulated from the questions or
synthesized empty from the guide — has a strength percentage of at most
100; it is 0 exactly when the section has zero questions, and otherwise
equals `min 100 (10 * totalQuestions + 30 * [has strategic])`. -/
theorem sectionStrength_bounds :
    ∀ (qs : List SectionQuestion) (sec : RfpSection),
      (sec ∈ buildSections qs ∨ ∃ t, sec = emptyGuideSection t) →
      sectionStrengthPercent sec ≤ 100 ∧
        (sec.questions.length = 0 → sectionStrengthPercent sec = 0) ∧
        (sec.questions.length ≠ 0 →
          sectionStrengthPercent sec =
            min 100 ((sec.requirementCount + sec.strategicCount) * 10 +
              (if 0 < sec.strategicCount then 30 else 0))) := by
  intro qs sec hsec
  have hct : sec.requirementCount + sec.strategicCount = sec.questions.length := by
    rcases hsec with h | ⟨t, rfl⟩
    · exact buildSections_counts qs sec h
    · rfl
  refine ⟨?_, ?_, ?_⟩
  · rw [sectionStrengthPercent]
    by_cases h0 : (sec.requirementCount + sec.strategicCount == 0) = true
    · simp [h0]
    · simp only [h0, Bool.false_eq_true, if_false]
      exact min_le_left _ _
  · intro hq
    rw [sectionStrengthPercent]
    have : (sec.requirementCount + sec.strategicCount == 0) = true := by
      rw [beq_iff_eq, hct, hq]
    simp [this]
  · intro hq
    rw [sectionStrengthPercent]
    have : (sec.requirementCount + sec.strategicCount == 0) = false := by
      rw [beq_eq_false_iff_ne, hct]
      exact hq
    simp [this]

/-- Witness for C10 at a single strategic question. -/
theorem sectionStrength_bounds_witness :
    ({ title := "Technical", questions := [⟨some "Technical", "Strategic", "x"⟩],
       requirementCount := 0, strategicCount := 1 } : RfpSection)
        ∈ buildSections [⟨some "Technical", "Strategic", "x"⟩] ∧
      sectionStrengthPercent
        { title := "Technical", questions := [⟨some "Technical", "Strategic", "x"⟩],
          requirementCount := 0, strategicCount := 1 } ≤ 100 :=
  ⟨by decide,
    (sectionStrength_bounds [⟨some "Technical", "Strategic", "x"⟩]
      { title := "Technical", questions := [⟨some "Technical", "Strategic", "x"⟩],
        requirementCount := 0, strategicCount := 1 }
      (Or.inl (by decide))).1⟩

/-! ## Claims C4 and C8: chat failure handling and single flight -/

lemma sendChatMessage_skip (st : ChatState) (ui : ChatUI) (fetch : FetchOutcome)
    (hcond : (jsTrim ui.inputValue == "" || st.loading) = true) :
    sendChatMessage st ui fetch = (st, ui, false) := by
  simp only [sendChatMessage, hcond, if_true]

lemma sendChatMessage_completes (st : ChatState) (ui : ChatUI)
    (fetch : FetchOutcome)
    (hcond : (jsTrim ui.inputValue == "" || st.loading) = false) :
    (sendChatMessage st ui fetch).2.2 = true ∧
      (sendChatMessage st ui fetch).1.loading = false ∧
      (sendChatMessage st ui fetch).2.1.loadingShown = false := by
  rcases fetch with _ | s | ⟨rt, srcs⟩ <;>
    simp only [sendChatMessage, hcond, Bool.false_eq_true, if_false,
      addChatMessage] <;>
    first
      | exact ⟨trivial, trivial, trivial⟩
      | (split <;> refine ⟨?_, ?_, ?_⟩ <;> trivial)

lemma sendChatMessage_failure_eq (st : ChatState) (ui : ChatUI)
    (fetch : FetchOutcome)
    (hcond : (jsTrim ui.inputValue == "" || st.loading) = false)
    (hf : fetch = FetchOutcome.networkError ∨
      ∃ s, fetch = FetchOutcome.httpError s) :
    sendChatMessage st ui fetch =
      ({ isOpen := st.isOpen,
         messages := st.messages ++
           [{ text := jsTrim ui.inputValue, type := "user", sources := [] },
            { text := chatErrorMessage, type := "system", sources := [] }],
         loading := false },
       { inputValue := "",
         rendered := ui.rendered ++
           [{ cssClass := "user", text := jsTrim ui.inputValue,
              sourcesShown := false, sourceItems := [] },
            { cssClass := "system", text := chatErrorMessage,
              sourcesShown := false, sourceItems := [] }],
         loadingShown := false },
       true) := by
  rcases hf with rfl | ⟨s, rfl⟩ <;>
    simp [sendChatMessage, hcond, addChatMessage]

/-- C4: a failed chat request (network error or any non-OK HTTP status)
leaves the loading flag false and the indicator removed, appends only
the user message and a fixed failure message that is independent of the
status — never the raw error — keeps the earlier transcript intact, and
leaves the chat usable: a subsequent call with non-empty input issues a
request. -/
theorem chatFailure_fixed_and_recoverable :
    ∀ (st : ChatState) (ui : ChatUI) (s : Nat) (fetch : FetchOutcome),
      st.loading = false → jsTrim ui.inputValue ≠ "" →
      (fetch = FetchOutcome.networkError ∨ fetch = FetchOutcome.httpError s) →
      ((sendChatMessage st ui fetch).1.loading = false ∧
        (sendChatMessage st ui fetch).2.1.loadingShown = false ∧
        (sendChatMessage st ui fetch).1.messages =
          st.messages ++
            [{ text := jsTrim ui.inputValue, type := "user", sources := [] },
             { text := chatErrorMessage, type := "system", sources := [] }] ∧
        sendChatMessage st ui (FetchOutcome.httpError s) =
          sendChatMessage st ui FetchOutcome.networkError ∧
        ∀ (ui' : ChatUI) (fetch' : FetchOutcome), jsTrim ui'.inputValue ≠ "" →
          (sendChatMessage (sendChatMessage st ui fetch).1 ui' fetch').2.2
            = true) := by
  intro st ui s fetch hld hmsg hf
  have hcond : (jsTrim ui.inputValue == "" || st.loading) = false := by
    rw [hld, Bool.or_false, beq_eq_false_iff_ne]
    exact hmsg
  have hrun := sendChatMessage_failure_eq st ui fetch hcond
    (by rcases hf with rfl | rfl
        · exact Or.inl rfl
        · exact Or.inr ⟨s, rfl⟩)
  refine ⟨by rw [hrun], by rw [hrun], by rw [hrun], ?_, ?_⟩
  · rw [sendChatMessage_failure_eq st ui _ hcond (Or.inr ⟨s, rfl⟩),
      sendChatMessage_failure_eq st ui _ hcond (Or.inl rfl)]
  · intro ui' fetch' hmsg'
    have hld' : (sendChatMessage st ui fetch).1.loading = false := by rw [hrun]
    have hcond' :
        (jsTrim ui'.inputValue == "" || (sendChatMessage st ui fetch).1.loading)
          = false := by
      rw [hld', Bool.or_false, beq_eq_false_iff_ne]
      exact hmsg'
    exact (sendChatMessage_completes _ ui' fetch' hcond').1

/-- Witness for C4 at a concrete failing request. -/
theorem chatFailure_fixed_and_recoverable_witness :
    (⟨false, [], false⟩ : ChatState).loading = false ∧
      jsTrim (⟨"hello", [], false⟩ : ChatUI).inputValue ≠ "" ∧
      (sendChatMessage ⟨false, [], false⟩ ⟨"hello", [], false⟩
        FetchOutcome.networkError).1.loading = false :=
  ⟨rfl, by decide,
    (chatFailure_fixed_and_recoverable ⟨false, [], false⟩ ⟨"hello", [], false⟩
      500 FetchOutcome.networkError rfl (by decide) (Or.inl rfl)).1⟩

/-- C8: while a request is loading, any further `sendChatMessage` call
returns immediately with no request issued and no state change; and
whenever a request is issued, the loading flag ends false on every
completion path, so two overlapping chat requests are unreachable. -/
theorem chat_single_flight :
    ∀ (st : ChatState) (ui : ChatUI) (fetch : FetchOutcome),
      (st.loading = true → sendChatMessage st ui fetch = (st, ui, false)) ∧
      ((sendChatMessage st ui fetch).2.2 = true →
        (sendChatMessage st ui fetch).1.loading = false) ∧
      ((sendChatMessage st ui fetch).2.2 = false →
        sendChatMessage st ui fetch = (st, ui, false)) := by
  intro st ui fetch
  by_cases hcond : (jsTrim ui.inputValue == "" || st.loading) = true
  · have hskip := sendChatMessage_skip st ui fetch hcond
    refine ⟨fun _ => hskip, ?_, fun _ => hskip⟩
    intro habs
    rw [hskip] at habs
    exact absurd habs Bool.false_ne_true
  · have hcond' : (jsTrim ui.inputValue == "" || st.loading) = false :=
      eq_false_of_ne_true hcond
    have hcomp := sendChatMessage_completes st ui fetch hcond'
    refine ⟨?_, fun _ => hcomp.2.1, ?_⟩
    · intro hload
      exact absurd (by rw [hload, Bool.or_true] : _) hcond
    · intro habs
      rw [hcomp.1] at habs
      exact absurd habs.symm Bool.false_ne_true

/-- Witness for C8 at a state with a request already in flight. -/
theorem chat_single_flight_witness :
    sendChatMessage ⟨false, [], true⟩ ⟨"hi", [], true⟩ FetchOutcome.networkError
      = (⟨false, [], true⟩, ⟨"hi", [], true⟩, false) :=
  (chat_single_flight ⟨false, [], true⟩ ⟨"hi", [], true⟩
    FetchOutcome.networkError).1 rfl

/-! ## Claim C7: attribution and score rendering -/

lemma forall₂_map_self {α β : Type} (f : α → β) (R : β → α → Prop)
    (h : ∀ a, R (f a) a) (l : List α) : List.Forall₂ R (l.map f) l := by
  induction l with
  | nil => exact List.Forall₂.nil
  | cons x rest ih => exact List.Forall₂.cons (h x) ih

/-- C7: every source of a response is rendered as a table row showing
its label (falling back to "Unknown") and its relevance score as a
percentage; the table exists exactly for a non-empty sources list.  In
the chat view a non-empty sources list renders one labelled item with a
text preview per source, and an empty list leaves the sources section
hidden. -/
theorem queryResults_show_attribution :
    (∀ sources : List ResponseSource, sources ≠ [] →
        renderResponseSources sources = some (sources.map renderSourceRow) ∧
          List.Forall₂ (fun (row : SourceRow) (src : ResponseSource) =>
              row.sourceCell = jsStrOr src.source "Unknown" ∧
                row.relevanceCell = src.score * 100)
            (sources.map renderSourceRow) sources) ∧
      renderResponseSources [] = none ∧
      (∀ (st : ChatState) (dom : List RenderedChatMessage) (text : String)
          (sources : List ChatSource), sources ≠ [] →
        (addChatMessage st dom text "system" sources).2 =
          dom ++ [{ cssClass := "system", text := text, sourcesShown := true,
                    sourceItems := sources.map renderChatSourceLi }]) ∧
      (∀ (st : ChatState) (dom : List RenderedChatMessage) (text : String),
        (addChatMessage st dom text "system" []).2 =
          dom ++ [{ cssClass := "system", text := text, sourcesShown := false,
                    sourceItems := [] }]) ∧
      (∀ src : ChatSource, renderChatSourceLi src =
        "<strong>" ++ jsStrOr src.source "Unknown" ++ ":</strong> "
          ++ (if jsTruthyOptStr src.text then (src.text.getD "").take 100 ++ "..."
              else "No text available")) := by
  refine ⟨?_, rfl, ?_, fun st dom text => rfl, fun src => rfl⟩
  · intro sources hne
    constructor
    · rw [renderResponseSources, if_neg]
      simp [List.isEmpty_iff, hne]
    · exact forall₂_map_self renderSourceRow _ (fun src => ⟨rfl, rfl⟩) sources
  · intro st dom text sources hne
    rw [addChatMessage]
    have hemp : sources.isEmpty = false := by
      simp [List.isEmpty_iff, hne]
    simp [hemp]

set_option maxRecDepth 8192 in
/-- Witness for C7 at a two-source response and a one-source chat
answer. -/
theorem queryResults_show_attribution_witness :
    renderResponseSources
        [{ source := some "doc1.pdf", score := (87 : ℚ) / 100, text := some "alpha" },
         { source := none, score := (1 : ℚ) / 2, text := none }]
      = some
        [{ sourceCell := "doc1.pdf", relevanceCell := 87, contentCell := "alpha..." },
         { sourceCell := "Unknown", relevanceCell := 50, contentCell := "No text" }] ∧
      (addChatMessage ⟨false, [], false⟩ [] "answer" "system"
          [{ source := some "doc2.docx", text := some "beta" }]).2
        = [{ cssClass := "system", text := "answer", sourcesShown := true,
             sourceItems := ["<strong>doc2.docx:</strong> beta..."] }] := by
  constructor
  · have h := (queryResults_show_attribution.1
      [{ source := some "doc1.pdf", score := (87 : ℚ) / 100, text := some "alpha" },
       { source := none, score := (1 : ℚ) / 2, text := none }] (by decide)).1
    rw [h]
    norm_num [renderSourceRow, jsStrOr, jsTruthyOptStr]
    all_goals decide
  · have h := queryResults_show_attribution.2.2.1 ⟨false, [], false⟩ [] "answer"
      [{ source := some "doc2.docx", text := some "beta" }] (by decide)
    rw [h]
    decide

/-! ## Retrieval layer (modelled from the spec) -/

/-- Modelled from the spec: one nearest-neighbor hit of the retriever
(`services/knowledge.py` is not part of the source tree): a chunk id
with its relevance score. -/
structure SearchHit where
  chunkId : Nat
  score : ℚ
deriving Repr, DecidableEq

/-- Modelled from the spec: the three search strategies of the
retriever, as the design document orders them — the primary similarity
search returning raw scores, the relevance-normalized variant, and the
bare top-k search returning chunk ids without scores.  Each may fail
with a provider- or library-level error. -/
structure SearchStrategies where
  withScore : String → Nat → Except String (List SearchHit)
  withRelevance : String → Nat → Except String (List SearchHit)
  bareTopK : String → Nat → Except String (List Nat)

/-- Modelled from the spec: the typed failure reasons of `search`. -/
inductive SearchFailure where
  | emptyQuery : SearchFailure
  | nonPositiveK : SearchFailure
  | allStrategiesFailed : String → SearchFailure
deriving Repr, DecidableEq

/-- Modelled from the spec: which strategy ultimately served a query,
logged for observability. -/
inductive StrategyTag where
  | primaryWithScore : StrategyTag
  | relevanceNormalized : StrategyTag
  | bareTopKRanked : StrategyTag
deriving Repr, DecidableEq

/-- Modelled from the spec: the default descending rank-based score the
retriever synthesizes for hits of the bare top-k strategy — the hit at
rank `i` of `n` receives `1 - i / n`. -/
def synthesizeRankScoresAux (n : Nat) (i : Nat) : List Nat → List SearchHit
  | [] => []
  | id :: rest =>
      { chunkId := id, score := 1 - (i : ℚ) / n }
        :: synthesizeRankScoresAux n (i + 1) rest

/-- Modelled from the spec: scores for a bare top-k result list. -/
def synthesizeRankScores (ids : List Nat) : List SearchHit :=
  synthesizeRankScoresAux ids.length 0 ids

/-- Modelled from the spec: `search(queryText, k)` of the retriever
(`services/knowledge.py` is not part of the source tree).  Input
validation (empty query, non-positive k) rejects before any strategy is
consulted; then the strategies run in the fixed order primary →
relevance-normalized → bare top-k, a fallback attempted only after the
previous strategy returned an error. -/
def search (strategies : SearchStrategies) (queryText : String) (k : Int) :
    Except SearchFailure (List SearchHit × StrategyTag) :=
  if queryText = "" then .error .emptyQuery
  else if k ≤ 0 then .error .nonPositiveK
  else
    match strategies.withScore queryText k.toNat with
    | .ok hits => .ok (hits, .primaryWithScore)
    | .error _ =>
      match strategies.withRelevance queryText k.toNat with
      | .ok hits => .ok (hits, .relevanceNormalized)
      | .error _ =>
        match strategies.bareTopK queryText k.toNat with
        | .ok ids => .ok (synthesizeRankScores ids, .bareTopKRanked)
        | .error e => .error (.allStrategiesFailed e)

/-- A strategy set whose members all succeed with an empty result. -/
def trivialStrategies : SearchStrategies :=
  { withScore := fun _ _ => .ok [],
    withRelevance := fun _ _ => .ok [],
    bareTopK := fun _ _ => .ok [] }

/-- A strategy set whose primary strategy is down and whose
relevance-normalized variant answers. -/
def fallbackStrategies : SearchStrategies :=
  { withScore := fun _ _ => .error "provider down",
    withRelevance := fun _ _ => .ok [{ chunkId := 1, score := (9 : ℚ) / 10 }],
    bareTopK := fun _ _ => .ok [] }

lemma synthesizeRankScoresAux_chain (n : Nat) (hn : 0 < n) :
    ∀ (ids : List Nat) (i : Nat),
      List.Chain' (fun a b => b.score < a.score)
        (synthesizeRankScoresAux n i ids) := by
  intro ids
  induction ids with
  | nil => intro i; exact List.chain'_nil
  | cons id rest ih =>
      intro i
      rw [synthesizeRankScoresAux]
      cases rest with
      | nil => simp [synthesizeRankScoresAux]
      | cons id' rest' =>
          rw [synthesizeRankScoresAux]
          refine List.Chain'.cons ?_ ?_
          · show (1 : ℚ) - (i + 1 : Nat) / n < 1 - (i : Nat) / n
            have hn' : (0 : ℚ) < (n : ℚ) := by exact_mod_cast hn
            have h1 : ((i : Nat) : ℚ) / n < ((i + 1 : Nat) : ℚ) / n := by
              rw [div_lt_div_iff_of_pos_right hn']
              push_cast
              linarith
            linarith
          · have := ih (i + 1)
            rw [synthesizeRankScoresAux] at this
            exact this

/-- C3: the retriever tries the strategies in the fixed order primary
(raw score) → relevance-normalized → bare top-k with synthesized
descending rank scores; a fallback runs only after the previous
strategy returned an error — a successful primary result, however
empty or low-scoring, is returned as is, independently of the fallback
strategies. -/
theorem search_fallback_order :
    ∀ (S : SearchStrategies) (q : String) (k : Int), q ≠ "" → 0 < k →
      ((∀ hits, S.withScore q k.toNat = .ok hits →
          search S q k = .ok (hits, .primaryWithScore)) ∧
        (∀ e hits, S.withScore q k.toNat = .error e →
          S.withRelevance q k.toNat = .ok hits →
          search S q k = .ok (hits, .relevanceNormalized)) ∧
        (∀ e e' ids, S.withScore q k.toNat = .error e →
          S.withRelevance q k.toNat = .error e' →
          S.bareTopK q k.toNat = .ok ids →
          search S q k = .ok (synthesizeRankScores ids, .bareTopKRanked)) ∧
        (∀ S' : SearchStrategies, S'.withScore = S.withScore →
          (∃ hits, S.withScore q k.toNat = .ok hits) →
          search S' q k = search S q k) ∧
        (∀ ids, ids ≠ [] →
          List.Chain' (fun a b => b.score < a.score)
            (synthesizeRankScores ids))) := by
  intro S q k hq hk
  have hknot : ¬ k ≤ 0 := not_le.mpr hk
  refine ⟨?_, ?_, ?_, ?_, ?_⟩
  · intro hits hok
    rw [search, if_neg hq, if_neg hknot, hok]
  · intro e hits herr hok
    rw [search, if_neg hq, if_neg hknot, herr, hok]
  · intro e e' ids herr herr' hok
    rw [search, if_neg hq, if_neg hknot, herr, herr', hok]
  · intro S' hsame ⟨hits, hok⟩
    rw [search, if_neg hq, if_neg hknot, search, if_neg hq, if_neg hknot,
      hsame, hok]
  · intro ids hne
    rw [synthesizeRankScores]
    exact synthesizeRankScoresAux_chain ids.length
      (List.length_pos.mpr hne) ids 0

/-- Witness for C3: the primary strategy fails, the relevance
fallback serves the query. -/
theorem search_fallback_order_witness :
    fallbackStrategies.withScore "query" (3 : Int).toNat = .error "provider down" ∧
      fallbackStrategies.withRelevance "query" (3 : Int).toNat
        = .ok [{ chunkId := 1, score := (9 : ℚ) / 10 }] ∧
      search fallbackStrategies "query" 3
        = .ok ([{ chunkId := 1, score := (9 : ℚ) / 10 }], .relevanceNormalized) :=
  ⟨rfl, rfl,
    (search_fallback_order fallbackStrategies "query" 3 (by decide)
      (by decide)).2.1 "provider down"
      [{ chunkId := 1, score := (9 : ℚ) / 10 }] rfl rfl⟩

/-- C2: an empty query or a non-positive k is rejected with an
input-validation failure before any strategy or index access — the
result is independent of the strategy set — and in the chat front end
an input that trims to the empty string issues no request and adds no
message. -/
theorem search_input_validation :
    (∀ (S : SearchStrategies) (k : Int), search S "" k = .error .emptyQuery) ∧
      (∀ (S : SearchStrategies) (q : String) (k : Int), q ≠ "" → k ≤ 0 →
        search S q k = .error .nonPositiveK) ∧
      (∀ (S S' : SearchStrategies) (q : String) (k : Int), (q = "" ∨ k ≤ 0) →
        search S q k = search S' q k) ∧
      (∀ (st : ChatState) (ui : ChatUI) (fetch : FetchOutcome),
        jsTrim ui.inputValue = "" →
        sendChatMessage st ui fetch = (st, ui, false)) := by
  refine ⟨?_, ?_, ?_, ?_⟩
  · intro S k
    rw [search, if_pos rfl]
  · intro S q k hq hk
    rw [search, if_neg hq, if_pos hk]
  · intro S S' q k h
    rcases h with rfl | hk
    · rw [search, if_pos rfl, search, if_pos rfl]
    · by_cases hq : q = ""
      · subst hq
        rw [search, if_pos rfl, search, if_pos rfl]
      · rw [search, if_neg hq, if_pos hk, search, if_neg hq, if_pos hk]
  · intro st ui fetch hempty
    apply sendChatMessage_skip
    rw [hempty]
    rfl

/-- Witness for C2: a blank chat input sends nothing, and a
non-positive k is rejected without consulting any strategy. -/
theorem search_input_validation_witness :
    jsTrim "   " = "" ∧
      sendChatMessage ⟨false, [], false⟩ ⟨"   ", [], false⟩
          FetchOutcome.networkError
        = (⟨false, [], false⟩, ⟨"   ", [], false⟩, false) ∧
      ("query" : String) ≠ "" ∧ (0 : Int) ≤ 0 ∧
      search trivialStrategies "query" 0 = .error .nonPositiveK :=
  ⟨by decide,
    search_input_validation.2.2.2 ⟨false, [], false⟩ ⟨"   ", [], false⟩
      FetchOutcome.networkError (by decide),
    by decide, by decide,
    search_input_validation.2.1 trivialStrategies "query" 0 (by decide)
      (by decide)⟩

/-! ## Embedder chunking (modelled from the spec) -/

/-- Modelled from the spec: the splitting loop of the embedder
(`utils/knowledge_embedder.py` is not part of the source tree).  A text
no longer than `maxChunkSize` is emitted whole; otherwise a window of
`maxChunkSize` characters is emitted and the loop continues `step`
characters further, where `step = maxChunkSize - overlapSize`, so each
chunk after the first begins `overlapSize` characters before the end
of the previous chunk.  The `step = 0` guard only makes the function
total outside the contract `overlapSize < maxChunkSize`. -/
def chunkAux (text : List Char) (maxChunkSize step : Nat) :
    List (List Char) :=
  if text.length ≤ maxChunkSize ∨ step = 0 then [text]
  else text.take maxChunkSize :: chunkAux (text.drop step) maxChunkSize step
termination_by text.length
decreasing_by
  rename_i h
  rw [List.length_drop]
  push_neg at h
  omega

/-- Modelled from the spec: `chunk(documentText, maxChunkSize,
overlapSize)` produces the ordered chunk texts of a document. -/
def chunk (documentText : String) (maxChunkSize overlapSize : Nat) :
    List String :=
  (chunkAux documentText.data maxChunkSize (maxChunkSize - overlapSize)).map
    String.mk

/-- C6: a document no longer than `maxChunkSize` yields exactly one
chunk, whose text is the whole document. -/
theorem chunk_short_document_single :
    ∀ (doc : String) (maxChunkSize overlapSize : Nat),
      doc.length ≤ maxChunkSize →
      chunk doc maxChunkSize overlapSize = [doc] := by
  intro doc maxChunkSize overlapSize h
  obtain ⟨dat⟩ := doc
  have h' : dat.length ≤ maxChunkSize := h
  rw [chunk, chunkAux, if_pos]
  · rfl
  · exact Or.inl h'

/-- Witness for C6 at a short document. -/
theorem chunk_short_document_single_witness :
    ("hello" : String).length ≤ 500 ∧ chunk "hello" 500 50 = ["hello"] :=
  ⟨by decide, chunk_short_document_single "hello" 500 50 (by decide)⟩
